import Mathlib

/-!
Verification of the reconciliation engine of a dynamic-DNS updater.

The repository holds two versions of the same program:
  - src/cdu.ts             (the older version: no zone-id truthiness check,
                            record ids collected as an array, no completeness
                            validation before the update step)
  - src/unnamed/part_000   (the newer version: checks the zone id, collects
                            record ids into a name-keyed object, and validates
                            that every configured name resolved before updating)

Both are embedded below.  The embedding makes the remote world explicit as an
environment (current public address, the provider's zone response, the
provider's per-name record-lookup response, and the per-id update outcome) and
records every provider request issued in a trace.  The concurrent fan-outs
(record lookups, record updates) are issued in configuration order but settle
in an arbitrary completion order, modelled as a permutation of the task
indices; Promise.all rejects with the first rejection in completion order.

JavaScript details that matter and are modelled faithfully:
  - string truthiness: the empty string and undefined are falsy (jsFalsy);
  - template-literal interpolation of undefined yields the text "undefined"
    (jsStr), so a missing id produces requests to literal ".../undefined";
  - assigning to an object property keeps the key's position if it already
    exists and appends the key otherwise (objInsert); Object.values returns
    values in key order (objValues);
  - strict equality of the cached address (string or undefined) with the
    current address (a string) holds only when the cache holds that string.
-/

/-- Outcome of one HTTP call to the provider: a non-success status (res.ok
false, which makes the code throw) or a success carrying the parsed payload. -/
inductive Resp (α : Type) where
  | httpError : Resp α
  | ok : α → Resp α
deriving DecidableEq

/-- The remote world a reconciliation pass runs against: the address the
resolver returns, the zone-query response (the ids of matching zones in
provider order), the record-query response for each record name (ids of
matching records), and whether the PATCH for a given record id succeeds. -/
structure Env where
  currentIp : String
  zoneResp : Resp (List String)
  recordResp : String → Resp (List String)
  updateOk : String → Bool

/-- A provider request, as it appears on the wire. -/
inductive Request where
  | zoneLookup (zoneName : String)
  | recordLookup (zoneId : String) (recordName : String)
  | update (zoneId : String) (recordId : String) (newIp : String)
deriving DecidableEq

/-- The errors a pass can throw, one constructor per distinct throw site:
zoneProviderError for "failed to find zone", zoneNotFound for "zone doesn't
exist", recordProviderError for "failed to find record", recordNotFound for
"record doesn't exist", updateFailed for "failed to update DNS record". -/
inductive PassError where
  | zoneProviderError (zoneName : String)
  | zoneNotFound (zoneName : String)
  | recordProviderError (recordName : String)
  | recordNotFound (recordName : String)
  | updateFailed (recordId : String)
deriving DecidableEq

instance {ε α : Type} [DecidableEq ε] [DecidableEq α] :
    DecidableEq (Except ε α) := fun a b =>
  match a, b with
  | .error e, .error f =>
      if h : e = f then .isTrue (by rw [h])
      else .isFalse (by intro hc; cases hc; exact h rfl)
  | .error _, .ok _ => .isFalse (by intro hc; cases hc)
  | .ok _, .error _ => .isFalse (by intro hc; cases hc)
  | .ok x, .ok y =>
      if h : x = y then .isTrue (by rw [h])
      else .isFalse (by intro hc; cases hc; exact h rfl)

/-- What one pass did: the provider requests issued (in order), the cache
content when the pass ended, and the pass outcome. -/
structure PassResult where
  requests : List Request
  cache : Option String
  result : Except PassError Unit
deriving DecidableEq

/-- JavaScript template-literal rendering of a possibly-undefined string. -/
def jsStr : Option String → String
  | some s => s
  | none => "undefined"

/-- JavaScript falsiness of a possibly-undefined string: undefined and the
empty string are falsy. -/
def jsFalsy : Option String → Bool
  | none => true
  | some s => s = ""

/-- Property read on a JavaScript object represented as an ordered
association list: some value when the key is present, none otherwise. -/
def objGet : List (String × Option String) → String → Option (Option String)
  | [], _ => none
  | (k, v) :: m, n => if k = n then some v else objGet m n

/-- Property assignment on a JavaScript object: overwrite in place when the
key exists, append the key otherwise. -/
def objInsert : List (String × Option String) → String → Option String →
    List (String × Option String)
  | [], k, v => [(k, v)]
  | (k', v') :: m, k, v =>
      if k' = k then (k, v) :: m else (k', v') :: objInsert m k v

/-- Object.values: the values in key order. -/
def objValues (m : List (String × Option String)) : List (Option String) :=
  m.map Prod.snd

/-- Object.keys: the keys in key order. -/
def objKeys (m : List (String × Option String)) : List String :=
  m.map Prod.fst

/-- The first task, in completion order sigma over the indices of l, whose
body yields a value: how Promise.all picks the rejection it propagates. -/
def firstWitness {α β : Type} (f : α → Option β) (l : List α) (σ : List Nat) :
    Option β :=
  σ.findSome? fun i =>
    match l[i]? with
    | some a => f a
    | none => none

/-- The record name of the first record-lookup task, in completion order,
whose HTTP call returned a non-success status (that task throws). -/
def recFirstFailure (env : Env) (names : List String) (σ : List Nat) :
    Option String :=
  firstWitness
    (fun n => match env.recordResp n with
      | .httpError => some n
      | .ok _ => none)
    names σ

/-- The id a successful lookup of the given record name stores:
data.result[0].id with optional chaining, so none when no record matched. -/
def recLookupVal (env : Env) (n : String) : Option String :=
  match env.recordResp n with
  | .httpError => none
  | .ok ids => ids.head?

/-- The write the task with index i performs on the shared idMap object when
it completes: store its own name's looked-up id (a no-op for an out-of-range
index, which never occurs for a real completion order). -/
def idMapStep (env : Env) (names : List String)
    (m : List (String × Option String)) (i : Nat) :
    List (String × Option String) :=
  match names[i]? with
  | some n => objInsert m n (recLookupVal env n)
  | none => m

/-- The idMap object of part_000's getRecordIds: each completing task writes
its own name's id into the shared object, in completion order sigma. -/
def buildIdMap (env : Env) (names : List String) (σ : List Nat) :
    List (String × Option String) :=
  σ.foldl (idMapStep env names) []

/-- The record-lookup requests: one per configured name, issued in
configuration order when the promises are created. -/
def recordLookupRequests (zoneId : String) (names : List String) :
    List Request :=
  names.map fun n => Request.recordLookup zoneId n

/-- getRecordIds of src/unnamed/part_000: awaits all lookup tasks; if any
threw, the whole call rejects with the first failure in completion order and
the idMap is discarded; otherwise it returns the idMap. -/
def getRecordIds (env : Env) (names : List String) (σ : List Nat) :
    Except PassError (List (String × Option String)) :=
  match recFirstFailure env names σ with
  | some n => .error (.recordProviderError n)
  | none => .ok (buildIdMap env names σ)

/-- getRecordIds of src/cdu.ts: Promise.all over the per-name tasks, so on
success an array of ids in configuration order (undefined entries for names
with no match), rejecting like part_000 on any HTTP failure. -/
def getRecordIdsArr (env : Env) (names : List String) (σ : List Nat) :
    Except PassError (List (Option String)) :=
  match recFirstFailure env names σ with
  | some n => .error (.recordProviderError n)
  | none => .ok (names.map (recLookupVal env))

/-- The record id of the first update task, in completion order tau, whose
PATCH returned a non-success status. -/
def updFirstFailure (env : Env) (ids : List String) (τ : List Nat) :
    Option String :=
  firstWitness (fun r => if env.updateOk r then none else some r) ids τ

/-- The update requests: one PATCH per record id, all carrying the same body,
issued in list order when the promises are created. -/
def updateRequests (zoneId : String) (ids : List String) (ip : String) :
    List Request :=
  ids.map fun r => Request.update zoneId r ip

/-- updateDNSRecord (identical in both versions): awaits all update tasks;
rejects with the first failing record id in completion order, succeeds when
every PATCH succeeded.  All requests were already issued when the promises
were created. -/
def updateDNSRecord (env : Env) (ids : List String) (τ : List Nat) :
    Except PassError Unit :=
  match updFirstFailure env ids τ with
  | some r => .error (.updateFailed r)
  | none => .ok ()

/-- part_000's validation scan: the first configured name, in configuration
order, whose entry in the idMap is missing or falsy. -/
def firstMissing (m : List (String × Option String)) (names : List String) :
    Option String :=
  names.find? fun n => jsFalsy ((objGet m n).join)

/-- One reconciliation pass of src/unnamed/part_000's cron callback, given
the configured zone name and record names, the cached previous address, the
environment, and the completion orders of the lookup and update fan-outs. -/
def passP (zoneName : String) (names : List String) (prev : Option String)
    (env : Env) (σ τ : List Nat) : PassResult :=
  if prev = some env.currentIp then
    { requests := [], cache := prev, result := .ok () }
  else
    let cur := env.currentIp
    match env.zoneResp with
    | .httpError =>
        { requests := [Request.zoneLookup zoneName], cache := some cur
          result := .error (.zoneProviderError zoneName) }
    | .ok zs =>
        if jsFalsy zs.head? then
          { requests := [Request.zoneLookup zoneName], cache := some cur
            result := .error (.zoneNotFound zoneName) }
        else
          let zid := jsStr zs.head?
          let lreqs := recordLookupRequests zid names
          match getRecordIds env names σ with
          | .error e =>
              { requests := Request.zoneLookup zoneName :: lreqs
                cache := some cur, result := .error e }
          | .ok m =>
              match firstMissing m names with
              | some n =>
                  { requests := Request.zoneLookup zoneName :: lreqs
                    cache := some cur, result := .error (.recordNotFound n) }
              | none =>
                  let ids := (objValues m).map jsStr
                  { requests := Request.zoneLookup zoneName :: lreqs ++
                      updateRequests zid ids cur
                    cache := some cur
                    result := updateDNSRecord env ids τ }

/-- One reconciliation pass of src/cdu.ts's cron callback: same no-op check
and cache write, but no zone-id truthiness check and no completeness
validation - the looked-up ids (undefined included) go straight to the
update step. -/
def passC (zoneName : String) (names : List String) (prev : Option String)
    (env : Env) (σ τ : List Nat) : PassResult :=
  if prev = some env.currentIp then
    { requests := [], cache := prev, result := .ok () }
  else
    let cur := env.currentIp
    match env.zoneResp with
    | .httpError =>
        { requests := [Request.zoneLookup zoneName], cache := some cur
          result := .error (.zoneProviderError zoneName) }
    | .ok zs =>
        let zid := jsStr zs.head?
        let lreqs := recordLookupRequests zid names
        match getRecordIdsArr env names σ with
        | .error e =>
            { requests := Request.zoneLookup zoneName :: lreqs
              cache := some cur, result := .error e }
        | .ok arr =>
            let ids := arr.map jsStr
            { requests := Request.zoneLookup zoneName :: lreqs ++
                updateRequests zid ids cur
              cache := some cur
              result := updateDNSRecord env ids τ }

/-- Whether a request is a record update (a PATCH). -/
def isUpdate : Request → Bool
  | .update _ _ _ => true
  | _ => false

/-- Whether a request is a zone lookup. -/
def isZoneLookup : Request → Bool
  | .zoneLookup _ => true
  | _ => false

/-! Lemmas about the JavaScript-object association list. -/

theorem objGet_objInsert (m : List (String × Option String)) (k n : String)
    (v : Option String) :
    objGet (objInsert m k v) n = if k = n then some v else objGet m n := by
  induction m with
  | nil => simp [objInsert, objGet]
  | cons p m ih =>
      obtain ⟨k', v'⟩ := p
      by_cases hk : k' = k
      · subst hk
        by_cases hn : k' = n <;> simp [objInsert, objGet, hn]
      · by_cases hn : k' = n
        · subst hn
          simp [objInsert, objGet, hk, Ne.symm hk]
        · simp [objInsert, objGet, hk, hn, ih]

theorem objKeys_cons (p : String × Option String)
    (m : List (String × Option String)) :
    objKeys (p :: m) = p.1 :: objKeys m := rfl

theorem objKeys_objInsert (m : List (String × Option String)) (k : String)
    (v : Option String) :
    objKeys (objInsert m k v) =
      if k ∈ objKeys m then objKeys m else objKeys m ++ [k] := by
  induction m with
  | nil => simp [objInsert, objKeys]
  | cons p m ih =>
      obtain ⟨k', v'⟩ := p
      by_cases hk : k' = k
      · subst hk
        simp [objInsert, objKeys_cons, List.mem_cons]
      · simp only [objInsert, hk, if_false, objKeys_cons]
        rw [ih]
        by_cases hm : k ∈ objKeys m
        · simp [List.mem_cons, hm, Ne.symm hk]
        · simp [List.mem_cons, hm, Ne.symm hk, List.cons_append]

theorem mem_objKeys_objInsert (m : List (String × Option String))
    (k n : String) (v : Option String) :
    n ∈ objKeys (objInsert m k v) ↔ n ∈ objKeys m ∨ n = k := by
  rw [objKeys_objInsert]
  by_cases hm : k ∈ objKeys m
  · simp only [hm, if_true]
    constructor
    · exact Or.inl
    · rintro (h | rfl)
      · exact h
      · exact hm
  · simp [hm]

theorem nodup_objKeys_objInsert (m : List (String × Option String))
    (k : String) (v : Option String) (h : (objKeys m).Nodup) :
    (objKeys (objInsert m k v)).Nodup := by
  rw [objKeys_objInsert]
  by_cases hm : k ∈ objKeys m
  · simpa [hm] using h
  · simp only [hm, if_false]
    simpa [List.nodup_append] using ⟨h, hm⟩

theorem mem_of_mem_objInsert (m : List (String × Option String))
    (k : String) (v : Option String) (p : String × Option String)
    (hp : p ∈ objInsert m k v) : p ∈ m ∨ p = (k, v) := by
  induction m with
  | nil => simpa [objInsert] using hp
  | cons q m ih =>
      obtain ⟨k', v'⟩ := q
      by_cases hk : k' = k
      · subst hk
        simp only [objInsert, if_true] at hp
        rcases List.mem_cons.mp hp with h | h
        · exact Or.inr h
        · exact Or.inl (List.mem_cons_of_mem _ h)
      · simp only [objInsert, hk, if_false] at hp
        rcases List.mem_cons.mp hp with h | h
        · exact Or.inl (h ▸ List.mem_cons_self _ _)
        · rcases ih h with h' | h'
          · exact Or.inl (List.mem_cons_of_mem _ h')
          · exact Or.inr h'

theorem objGet_isSome_iff (m : List (String × Option String)) (n : String) :
    (objGet m n).isSome = true ↔ n ∈ objKeys m := by
  induction m with
  | nil => simp [objGet, objKeys]
  | cons p m ih =>
      obtain ⟨k', v'⟩ := p
      by_cases hk : k' = n
      · subst hk
        simp [objGet, objKeys_cons]
      · simp [objGet, objKeys_cons, hk, Ne.symm hk, ih]

/-! Characterization of the idMap built by the concurrent lookup tasks,
for an arbitrary completion order. -/

theorem exists_idx_iff_mem (names : List String) (σ : List Nat)
    (hσ : σ.Perm (List.range names.length)) (n : String) :
    (∃ i ∈ σ, names[i]? = some n) ↔ n ∈ names := by
  constructor
  · rintro ⟨i, _, hi⟩
    exact List.mem_iff_getElem?.mpr ⟨i, hi⟩
  · intro hn
    obtain ⟨i, hi⟩ := List.mem_iff_getElem?.mp hn
    refine ⟨i, ?_, hi⟩
    rw [hσ.mem_iff, List.mem_range]
    obtain ⟨hlt, -⟩ := List.getElem?_eq_some_iff.mp hi
    exact hlt

theorem objGet_foldl_idMapStep (env : Env) (names : List String) :
    ∀ (σ : List Nat) (m₀ : List (String × Option String)) (n : String),
      objGet (σ.foldl (idMapStep env names) m₀) n =
        if ∃ i ∈ σ, names[i]? = some n then some (recLookupVal env n)
        else objGet m₀ n := by
  intro σ
  induction σ with
  | nil => simp
  | cons i σ ih =>
      intro m₀ n
      rw [List.foldl_cons, ih]
      by_cases hσ : ∃ j ∈ σ, names[j]? = some n
      · rw [if_pos hσ, if_pos ⟨hσ.choose, List.mem_cons_of_mem i hσ.choose_spec.1,
          hσ.choose_spec.2⟩]
      · rw [if_neg hσ]
        cases hni : names[i]? with
        | none =>
            rw [idMapStep, hni]
            rw [if_neg]
            rintro ⟨j, hj, hjn⟩
            rcases List.mem_cons.mp hj with rfl | hj'
            · rw [hni] at hjn
              exact Option.noConfusion hjn
            · exact hσ ⟨j, hj', hjn⟩
        | some nᵢ =>
            rw [idMapStep, hni, objGet_objInsert]
            by_cases hn : nᵢ = n
            · subst hn
              rw [if_pos rfl, if_pos ⟨i, List.mem_cons_self i σ, hni⟩]
            · rw [if_neg hn, if_neg]
              rintro ⟨j, hj, hjn⟩
              rcases List.mem_cons.mp hj with rfl | hj'
              · rw [hni] at hjn
                exact hn (Option.some.inj hjn)
              · exact hσ ⟨j, hj', hjn⟩

theorem objGet_buildIdMap (env : Env) (names : List String) (σ : List Nat)
    (hσ : σ.Perm (List.range names.length)) (n : String) :
    objGet (buildIdMap env names σ) n =
      if n ∈ names then some (recLookupVal env n) else none := by
  rw [buildIdMap, objGet_foldl_idMapStep]
  have h := exists_idx_iff_mem names σ hσ n
  by_cases hn : n ∈ names
  · rw [if_pos (h.mpr hn), if_pos hn]
  · rw [if_neg (fun hc => hn (h.mp hc)), if_neg hn]
    rfl

theorem nodup_objKeys_foldl (env : Env) (names : List String) :
    ∀ (σ : List Nat) (m₀ : List (String × Option String)),
      (objKeys m₀).Nodup → (objKeys (σ.foldl (idMapStep env names) m₀)).Nodup := by
  intro σ
  induction σ with
  | nil => intro m₀ h; simpa using h
  | cons i σ ih =>
      intro m₀ h
      rw [List.foldl_cons]
      apply ih
      rw [idMapStep]
      cases names[i]? with
      | none => exact h
      | some n => exact nodup_objKeys_objInsert m₀ n _ h

theorem nodup_objKeys_buildIdMap (env : Env) (names : List String)
    (σ : List Nat) : (objKeys (buildIdMap env names σ)).Nodup :=
  nodup_objKeys_foldl env names σ [] (by simp [objKeys])

theorem mem_objKeys_buildIdMap (env : Env) (names : List String)
    (σ : List Nat) (hσ : σ.Perm (List.range names.length)) (n : String) :
    n ∈ objKeys (buildIdMap env names σ) ↔ n ∈ names := by
  rw [← objGet_isSome_iff, objGet_buildIdMap env names σ hσ]
  by_cases hn : n ∈ names <;> simp [hn]

theorem snd_eq_of_mem_foldl (env : Env) (names : List String) :
    ∀ (σ : List Nat) (m₀ : List (String × Option String)),
      (∀ p ∈ m₀, p.2 = recLookupVal env p.1) →
      ∀ p ∈ σ.foldl (idMapStep env names) m₀, p.2 = recLookupVal env p.1 := by
  intro σ
  induction σ with
  | nil => intro m₀ h; simpa using h
  | cons i σ ih =>
      intro m₀ h
      rw [List.foldl_cons]
      apply ih
      rw [idMapStep]
      cases names[i]? with
      | none => exact h
      | some n =>
          intro p hp
          rcases mem_of_mem_objInsert m₀ n _ p hp with h' | h'
          · exact h p h'
          · rw [h']

theorem snd_eq_of_mem_buildIdMap (env : Env) (names : List String)
    (σ : List Nat) (p : String × Option String)
    (hp : p ∈ buildIdMap env names σ) : p.2 = recLookupVal env p.1 :=
  snd_eq_of_mem_foldl env names σ [] (by simp) p hp

theorem objValues_buildIdMap (env : Env) (names : List String)
    (σ : List Nat) :
    objValues (buildIdMap env names σ) =
      (objKeys (buildIdMap env names σ)).map (recLookupVal env) := by
  rw [objValues, objKeys, List.map_map]
  apply List.map_congr_left
  intro p hp
  exact snd_eq_of_mem_buildIdMap env names σ p hp

theorem objKeys_buildIdMap_perm_dedup (env : Env) (names : List String)
    (σ : List Nat) (hσ : σ.Perm (List.range names.length)) :
    (objKeys (buildIdMap env names σ)).Perm names.dedup := by
  apply List.perm_of_nodup_nodup_toFinset_eq
    (nodup_objKeys_buildIdMap env names σ) (List.nodup_dedup names)
  ext a
  simp only [List.mem_toFinset, List.mem_dedup]
  exact mem_objKeys_buildIdMap env names σ hσ a

theorem length_buildIdMap (env : Env) (names : List String)
    (σ : List Nat) (hσ : σ.Perm (List.range names.length)) :
    (buildIdMap env names σ).length = names.dedup.length := by
  have h := (objKeys_buildIdMap_perm_dedup env names σ hσ).length_eq
  rwa [objKeys, List.length_map] at h

/-! Lemmas about the rejection Promise.all propagates from a fan-out. -/

theorem firstWitness_eq_none {α β : Type} (f : α → Option β) (l : List α)
    (σ : List Nat) (hσ : σ.Perm (List.range l.length)) :
    firstWitness f l σ = none ↔ ∀ a ∈ l, f a = none := by
  rw [firstWitness, List.findSome?_eq_none_iff]
  constructor
  · intro h a ha
    obtain ⟨i, hi⟩ := List.mem_iff_getElem?.mp ha
    have hmem : i ∈ σ := by
      rw [hσ.mem_iff, List.mem_range]
      obtain ⟨hlt, -⟩ := List.getElem?_eq_some_iff.mp hi
      exact hlt
    have := h i hmem
    rw [hi] at this
    exact this
  · intro h i _
    cases hli : l[i]? with
    | none => rfl
    | some a =>
        simpa using h a (List.mem_iff_getElem?.mpr ⟨i, hli⟩)

theorem exists_of_firstWitness_eq_some {α β : Type} (f : α → Option β)
    (l : List α) :
    ∀ (σ : List Nat) (b : β), firstWitness f l σ = some b →
      ∃ a ∈ l, f a = some b := by
  intro σ
  induction σ with
  | nil => intro b h; simp [firstWitness] at h
  | cons i σ ih =>
      intro b h
      rw [firstWitness, List.findSome?_cons] at h
      cases hli : l[i]? with
      | none =>
          simp only [hli] at h
          exact ih b h
      | some a =>
          simp only [hli] at h
          cases hfa : f a with
          | none =>
              simp only [hfa] at h
              exact ih b h
          | some b' =>
              simp only [hfa] at h
              exact ⟨a, List.mem_iff_getElem?.mpr ⟨i, hli⟩, by rw [hfa, h]⟩

theorem recFirstFailure_eq_none (env : Env) (names : List String)
    (σ : List Nat) (hσ : σ.Perm (List.range names.length))
    (hok : ∀ n ∈ names, env.recordResp n ≠ Resp.httpError) :
    recFirstFailure env names σ = none := by
  rw [recFirstFailure, firstWitness_eq_none _ _ _ hσ]
  intro n hn
  cases hr : env.recordResp n with
  | httpError => exact absurd hr (hok n hn)
  | ok _ => rfl

theorem recFirstFailure_spec (env : Env) (names : List String)
    (σ : List Nat) (hσ : σ.Perm (List.range names.length))
    (n : String) (hn : n ∈ names)
    (hfail : env.recordResp n = Resp.httpError) :
    ∃ n0 ∈ names, env.recordResp n0 = Resp.httpError ∧
      recFirstFailure env names σ = some n0 := by
  cases h : recFirstFailure env names σ with
  | none =>
      rw [recFirstFailure, firstWitness_eq_none _ _ _ hσ] at h
      have := h n hn
      rw [hfail] at this
      exact absurd this (by simp)
  | some n0 =>
      obtain ⟨a, ha, hfa⟩ := exists_of_firstWitness_eq_some _ names σ n0 h
      cases hr : env.recordResp a with
      | httpError =>
          have ha0 : a = n0 := by simpa [hr] using hfa
          subst ha0
          exact ⟨a, ha, hr, rfl⟩
      | ok _ =>
          exact absurd hfa (by simp [hr])

theorem updFirstFailure_eq_none (env : Env) (ids : List String)
    (τ : List Nat) (hτ : τ.Perm (List.range ids.length)) :
    updFirstFailure env ids τ = none ↔ ∀ r ∈ ids, env.updateOk r = true := by
  rw [updFirstFailure, firstWitness_eq_none _ _ _ hτ]
  constructor
  · intro h r hr
    have := h r hr
    by_cases hu : env.updateOk r
    · exact hu
    · rw [if_neg hu] at this
      exact absurd this (by simp)
  · intro h r hr
    rw [if_pos (h r hr)]

theorem updFirstFailure_unique (env : Env) (ids : List String)
    (τ : List Nat) (hτ : τ.Perm (List.range ids.length)) (id0 : String)
    (hid0 : id0 ∈ ids) (hfail : env.updateOk id0 = false)
    (hothers : ∀ r ∈ ids, r ≠ id0 → env.updateOk r = true) :
    updFirstFailure env ids τ = some id0 := by
  cases h : updFirstFailure env ids τ with
  | none =>
      rw [updFirstFailure_eq_none env ids τ hτ] at h
      rw [h id0 hid0] at hfail
      exact absurd hfail (by simp)
  | some r =>
      obtain ⟨a, ha, hfa⟩ := exists_of_firstWitness_eq_some _ ids τ r h
      by_cases hu : env.updateOk a
      · rw [if_pos hu] at hfa
        exact absurd hfa (by simp)
      · rw [if_neg hu] at hfa
        obtain rfl : a = r := Option.some.inj hfa
        by_cases har : a = id0
        · rw [har]
        · rw [hothers a ha har] at hu
          exact absurd rfl hu

/-! The validation scan of part_000, related to the lookup outcomes. -/

theorem find?_congr_on {α : Type} (p q : α → Bool) :
    ∀ l : List α, (∀ a ∈ l, p a = q a) → l.find? p = l.find? q := by
  intro l
  induction l with
  | nil => intro _; rfl
  | cons a l ih =>
      intro h
      rw [List.find?_cons, List.find?_cons, h a (List.mem_cons_self a l)]
      cases q a with
      | true => rfl
      | false => exact ih fun x hx => h x (List.mem_cons_of_mem a hx)

theorem firstMissing_buildIdMap (env : Env) (names : List String)
    (σ : List Nat) (hσ : σ.Perm (List.range names.length)) :
    firstMissing (buildIdMap env names σ) names =
      names.find? fun n => jsFalsy (recLookupVal env n) := by
  rw [firstMissing]
  apply find?_congr_on
  intro n hn
  rw [objGet_buildIdMap env names σ hσ, if_pos hn]
  rfl

/-! Helper facts about request lists and branch reductions of the passes. -/

theorem isUpdate_recordLookupRequests (zid : String) (names : List String) :
    ∀ r ∈ recordLookupRequests zid names, isUpdate r = false := by
  intro r hr
  obtain ⟨n, -, rfl⟩ := List.mem_map.mp hr
  rfl

theorem isZoneLookup_recordLookupRequests (zid : String)
    (names : List String) :
    ∀ r ∈ recordLookupRequests zid names, isZoneLookup r = false := by
  intro r hr
  obtain ⟨n, -, rfl⟩ := List.mem_map.mp hr
  rfl

theorem isZoneLookup_updateRequests (zid : String) (ids : List String)
    (ip : String) :
    ∀ r ∈ updateRequests zid ids ip, isZoneLookup r = false := by
  intro r hr
  obtain ⟨n, -, rfl⟩ := List.mem_map.mp hr
  rfl

theorem getRecordIds_ok (env : Env) (names : List String) (σ : List Nat)
    (hσ : σ.Perm (List.range names.length))
    (hok : ∀ n ∈ names, env.recordResp n ≠ Resp.httpError) :
    getRecordIds env names σ = .ok (buildIdMap env names σ) := by
  rw [getRecordIds, recFirstFailure_eq_none env names σ hσ hok]

theorem getRecordIdsArr_ok (env : Env) (names : List String) (σ : List Nat)
    (hσ : σ.Perm (List.range names.length))
    (hok : ∀ n ∈ names, env.recordResp n ≠ Resp.httpError) :
    getRecordIdsArr env names σ = .ok (names.map (recLookupVal env)) := by
  rw [getRecordIdsArr, recFirstFailure_eq_none env names σ hσ hok]

theorem passP_update_branch (zoneName : String) (names : List String)
    (prev : Option String) (env : Env) (σ τ : List Nat) (zs : List String)
    (hchg : prev ≠ some env.currentIp)
    (hz : env.zoneResp = Resp.ok zs)
    (hzt : jsFalsy zs.head? = false)
    (hσ : σ.Perm (List.range names.length))
    (hok : ∀ n ∈ names, env.recordResp n ≠ Resp.httpError)
    (hres : ∀ n ∈ names, jsFalsy (recLookupVal env n) = false) :
    passP zoneName names prev env σ τ =
      { requests := Request.zoneLookup zoneName ::
          (recordLookupRequests (jsStr zs.head?) names ++
            updateRequests (jsStr zs.head?)
              ((objValues (buildIdMap env names σ)).map jsStr) env.currentIp)
        cache := some env.currentIp
        result := updateDNSRecord env
          ((objValues (buildIdMap env names σ)).map jsStr) τ } := by
  have hmiss : firstMissing (buildIdMap env names σ) names = none := by
    rw [firstMissing_buildIdMap env names σ hσ, List.find?_eq_none]
    intro n hn
    simp [hres n hn]
  simp only [passP, if_neg hchg, hz, hzt, Bool.false_eq_true, if_false,
    getRecordIds_ok env names σ hσ hok, hmiss, List.cons_append]

theorem passC_update_branch (zoneName : String) (names : List String)
    (prev : Option String) (env : Env) (σ τ : List Nat) (zs : List String)
    (hchg : prev ≠ some env.currentIp)
    (hz : env.zoneResp = Resp.ok zs)
    (hσ : σ.Perm (List.range names.length))
    (hok : ∀ n ∈ names, env.recordResp n ≠ Resp.httpError) :
    passC zoneName names prev env σ τ =
      { requests := Request.zoneLookup zoneName ::
          (recordLookupRequests (jsStr zs.head?) names ++
            updateRequests (jsStr zs.head?)
              ((names.map (recLookupVal env)).map jsStr) env.currentIp)
        cache := some env.currentIp
        result := updateDNSRecord env
          ((names.map (recLookupVal env)).map jsStr) τ } := by
  simp only [passC, if_neg hchg, hz,
    getRecordIdsArr_ok env names σ hσ hok, List.cons_append]

/-! Concrete environments used to instantiate the theorems. -/

/-- A fully healthy environment: one zone z1, record a resolves to id r1,
any other record resolves to id r2, every update succeeds. -/
def envGood : Env :=
  { currentIp := "1.2.3.4"
    zoneResp := .ok ["z1"]
    recordResp := fun n => if n = "a" then .ok ["r1"] else .ok ["r2"]
    updateOk := fun _ => true }

/-- Record a exists (id r1), record b has no match (empty result), the zone
resolves to z1, every update succeeds (the PATCH to the literal path
".../undefined" included). -/
def envMissingRec : Env :=
  { currentIp := "9.9.9.9"
    zoneResp := .ok ["z1"]
    recordResp := fun n => if n = "a" then .ok ["r1"] else .ok []
    updateOk := fun _ => true }

/-- The zone query succeeds but reports zero matching zones; record lookups
and updates would succeed. -/
def envNoZone : Env :=
  { currentIp := "3.3.3.3"
    zoneResp := .ok []
    recordResp := fun _ => .ok ["r1"]
    updateOk := fun _ => true }

/-- The provider rejects the zone query with a non-success status. -/
def envZoneHttpError : Env :=
  { currentIp := "4.4.4.4"
    zoneResp := .httpError
    recordResp := fun _ => .ok ["r1"]
    updateOk := fun _ => true }

/-- Records a and b resolve to ids r1 and r2; updating r1 fails while
updating r2 succeeds. -/
def envUpdFail : Env :=
  { currentIp := "5.5.5.5"
    zoneResp := .ok ["z1"]
    recordResp := fun n => if n = "a" then .ok ["r1"] else .ok ["r2"]
    updateOk := fun r => r ≠ "r1" }

/-- The lookup of record b is rejected with a non-success status; record a
resolves to id r1. -/
def envLookupHttpError : Env :=
  { currentIp := "6.6.6.6"
    zoneResp := .ok ["z1"]
    recordResp := fun n => if n = "b" then .httpError else .ok ["r1"]
    updateOk := fun _ => true }

/-! Claim theorems. -/

/-- Claim C3: when the resolved current address equals the cached previous
address, the pass (in both versions) is a complete no-op: no provider request
of any kind is issued, the cache is unchanged, and the pass succeeds. -/
theorem c3_idempotent_noop (zoneName : String) (names : List String)
    (prev : Option String) (env : Env) (σ τ : List Nat)
    (h : prev = some env.currentIp) :
    passP zoneName names prev env σ τ =
      { requests := [], cache := prev, result := .ok () } ∧
    passC zoneName names prev env σ τ =
      { requests := [], cache := prev, result := .ok () } := by
  constructor <;> simp [passP, passC, h]

/-- Witness for c3_idempotent_noop at a concrete input. -/
theorem c3_idempotent_noop_witness :
    (some "1.2.3.4" : Option String) = some envGood.currentIp ∧
    (passP "example.com" ["a"] (some "1.2.3.4") envGood [0] [0] =
      { requests := [], cache := some "1.2.3.4", result := .ok () } ∧
     passC "example.com" ["a"] (some "1.2.3.4") envGood [0] [0] =
      { requests := [], cache := some "1.2.3.4", result := .ok () }) :=
  ⟨rfl, c3_idempotent_noop "example.com" ["a"] (some "1.2.3.4") envGood
    [0] [0] rfl⟩

/-- Claim C2: on a changed address, both versions write the new address to
the cache before contacting the provider; so when zone resolution fails the
pass ends failed with the cache already holding the new, never-applied
address, and a subsequent pass that sees the same current address is a
no-op (zero provider requests) instead of retrying the update. -/
theorem c2_cache_write_timing (zoneName : String) (names : List String)
    (prev : Option String) (env : Env) (σ τ : List Nat)
    (hchg : prev ≠ some env.currentIp)
    (hz : env.zoneResp = Resp.httpError) :
    (passP zoneName names prev env σ τ =
      { requests := [Request.zoneLookup zoneName]
        cache := some env.currentIp
        result := .error (.zoneProviderError zoneName) } ∧
     passC zoneName names prev env σ τ =
      { requests := [Request.zoneLookup zoneName]
        cache := some env.currentIp
        result := .error (.zoneProviderError zoneName) }) ∧
    (∀ (env2 : Env) (σ2 τ2 : List Nat), env2.currentIp = env.currentIp →
      passP zoneName names (some env.currentIp) env2 σ2 τ2 =
        { requests := [], cache := some env.currentIp, result := .ok () } ∧
      passC zoneName names (some env.currentIp) env2 σ2 τ2 =
        { requests := [], cache := some env.currentIp, result := .ok () }) := by
  refine ⟨⟨?_, ?_⟩, ?_⟩
  · simp [passP, if_neg hchg, hz]
  · simp [passC, if_neg hchg, hz]
  · intro env2 σ2 τ2 h2
    constructor <;> simp [passP, passC, h2]

/-- Witness for c2_cache_write_timing at a concrete input. -/
theorem c2_cache_write_timing_witness :
    ((none : Option String) ≠ some envZoneHttpError.currentIp ∧
     envZoneHttpError.zoneResp = Resp.httpError) ∧
    ((passP "example.com" ["a"] none envZoneHttpError [0] [0] =
        { requests := [Request.zoneLookup "example.com"]
          cache := some envZoneHttpError.currentIp
          result := .error (.zoneProviderError "example.com") } ∧
      passC "example.com" ["a"] none envZoneHttpError [0] [0] =
        { requests := [Request.zoneLookup "example.com"]
          cache := some envZoneHttpError.currentIp
          result := .error (.zoneProviderError "example.com") }) ∧
     (∀ (env2 : Env) (σ2 τ2 : List Nat),
        env2.currentIp = envZoneHttpError.currentIp →
        passP "example.com" ["a"] (some envZoneHttpError.currentIp) env2 σ2 τ2 =
          { requests := [], cache := some envZoneHttpError.currentIp
            result := .ok () } ∧
        passC "example.com" ["a"] (some envZoneHttpError.currentIp) env2 σ2 τ2 =
          { requests := [], cache := some envZoneHttpError.currentIp
            result := .ok () })) :=
  ⟨⟨by decide, rfl⟩,
   c2_cache_write_timing "example.com" ["a"] none envZoneHttpError [0] [0]
     (by decide) rfl⟩

/-- Claim C1 (amended, part_000 version): when record resolution completes
but some configured name maps to a missing or falsy id, the part_000 pass
fails with the not-found error naming the first missing name in configured
order, and no update request is issued in the pass. -/
theorem c1_all_or_nothing (zoneName : String) (names : List String)
    (prev : Option String) (env : Env) (σ τ : List Nat) (zs : List String)
    (n0 : String)
    (hchg : prev ≠ some env.currentIp)
    (hz : env.zoneResp = Resp.ok zs)
    (hzt : jsFalsy zs.head? = false)
    (hσ : σ.Perm (List.range names.length))
    (hok : ∀ n ∈ names, env.recordResp n ≠ Resp.httpError)
    (hmiss : (names.find? fun n => jsFalsy (recLookupVal env n)) = some n0) :
    (passP zoneName names prev env σ τ).result =
      .error (.recordNotFound n0) ∧
    ∀ r ∈ (passP zoneName names prev env σ τ).requests, isUpdate r = false := by
  have hfm : firstMissing (buildIdMap env names σ) names = some n0 := by
    rw [firstMissing_buildIdMap env names σ hσ, hmiss]
  have hpass : passP zoneName names prev env σ τ =
      { requests := Request.zoneLookup zoneName ::
          recordLookupRequests (jsStr zs.head?) names
        cache := some env.currentIp
        result := .error (.recordNotFound n0) } := by
    simp only [passP, if_neg hchg, hz, hzt, Bool.false_eq_true, if_false,
      getRecordIds_ok env names σ hσ hok, hfm]
  rw [hpass]
  refine ⟨rfl, ?_⟩
  intro r hr
  rcases List.mem_cons.mp hr with rfl | hr'
  · rfl
  · exact isUpdate_recordLookupRequests _ names r hr'

/-- Witness for c1_all_or_nothing at a concrete input. -/
theorem c1_all_or_nothing_witness :
    ((none : Option String) ≠ some envMissingRec.currentIp ∧
     envMissingRec.zoneResp = Resp.ok ["z1"] ∧
     jsFalsy (["z1"] : List String).head? = false ∧
     ([0, 1] : List Nat).Perm
       (List.range (["a", "b"] : List String).length) ∧
     (∀ n ∈ (["a", "b"] : List String),
        envMissingRec.recordResp n ≠ Resp.httpError) ∧
     ((["a", "b"] : List String).find?
        fun n => jsFalsy (recLookupVal envMissingRec n)) = some "b") ∧
    ((passP "example.com" ["a", "b"] none envMissingRec [0, 1] [0, 1]).result
        = .error (.recordNotFound "b") ∧
     ∀ r ∈ (passP "example.com" ["a", "b"] none envMissingRec
        [0, 1] [0, 1]).requests, isUpdate r = false) :=
  ⟨⟨by decide, rfl, by decide, by decide, by decide, by decide⟩,
   c1_all_or_nothing "example.com" ["a", "b"] none envMissingRec [0, 1] [0, 1]
     ["z1"] "b" (by decide) rfl (by decide) (by decide) (by decide)
     (by decide)⟩

/-- Claim C1, counterexample against the claim as stated: in the src/cdu.ts
pass, record resolution completes with b mapping to no id, yet the pass does
not abort - it succeeds and issues update requests, including one for the
successfully resolved record r1 and one to the literal path ".../undefined"
for the missing record. -/
theorem c1_counterexample :
    (passC "example.com" ["a", "b"] none envMissingRec [0, 1] [0, 1]).result
        = .ok () ∧
    Request.update "z1" "r1" "9.9.9.9" ∈
      (passC "example.com" ["a", "b"] none envMissingRec
        [0, 1] [0, 1]).requests ∧
    Request.update "z1" "undefined" "9.9.9.9" ∈
      (passC "example.com" ["a", "b"] none envMissingRec
        [0, 1] [0, 1]).requests := by
  refine ⟨rfl, ?_, ?_⟩ <;> decide

/-- Claim C6: if some record-lookup request is rejected with a non-success
status, record resolution in both versions fails with the provider error
naming a failing record, and the pass issues no update request, discarding
the other lookups' results. -/
theorem c6_lookup_failure (zoneName : String) (names : List String)
    (prev : Option String) (env : Env) (σ τ : List Nat) (zs : List String)
    (n : String)
    (hchg : prev ≠ some env.currentIp)
    (hz : env.zoneResp = Resp.ok zs)
    (hzt : jsFalsy zs.head? = false)
    (hσ : σ.Perm (List.range names.length))
    (hn : n ∈ names)
    (hfail : env.recordResp n = Resp.httpError) :
    (∃ n0 ∈ names, env.recordResp n0 = Resp.httpError ∧
      (passP zoneName names prev env σ τ).result =
          .error (.recordProviderError n0) ∧
      (passC zoneName names prev env σ τ).result =
          .error (.recordProviderError n0)) ∧
    (∀ r ∈ (passP zoneName names prev env σ τ).requests,
      isUpdate r = false) ∧
    (∀ r ∈ (passC zoneName names prev env σ τ).requests,
      isUpdate r = false) := by
  obtain ⟨n0, hn0, hr0, hff⟩ := recFirstFailure_spec env names σ hσ n hn hfail
  have hP : passP zoneName names prev env σ τ =
      { requests := Request.zoneLookup zoneName ::
          recordLookupRequests (jsStr zs.head?) names
        cache := some env.currentIp
        result := .error (.recordProviderError n0) } := by
    simp only [passP, if_neg hchg, hz, hzt, Bool.false_eq_true, if_false,
      getRecordIds, hff]
  have hC : passC zoneName names prev env σ τ =
      { requests := Request.zoneLookup zoneName ::
          recordLookupRequests (jsStr zs.head?) names
        cache := some env.currentIp
        result := .error (.recordProviderError n0) } := by
    simp only [passC, if_neg hchg, hz, getRecordIdsArr, hff]
  rw [hP, hC]
  refine ⟨⟨n0, hn0, hr0, rfl, rfl⟩, ?_, ?_⟩ <;>
    · intro r hr
      rcases List.mem_cons.mp hr with rfl | hr'
      · rfl
      · exact isUpdate_recordLookupRequests _ names r hr'

/-- Witness for c6_lookup_failure at a concrete input. -/
theorem c6_lookup_failure_witness :
    ((none : Option String) ≠ some envLookupHttpError.currentIp ∧
     envLookupHttpError.zoneResp = Resp.ok ["z1"] ∧
     jsFalsy (["z1"] : List String).head? = false ∧
     ([1, 0] : List Nat).Perm
       (List.range (["a", "b"] : List String).length) ∧
     "b" ∈ (["a", "b"] : List String) ∧
     envLookupHttpError.recordResp "b" = Resp.httpError) ∧
    ((∃ n0 ∈ (["a", "b"] : List String),
        envLookupHttpError.recordResp n0 = Resp.httpError ∧
        (passP "example.com" ["a", "b"] none envLookupHttpError
            [1, 0] [0, 1]).result = .error (.recordProviderError n0) ∧
        (passC "example.com" ["a", "b"] none envLookupHttpError
            [1, 0] [0, 1]).result = .error (.recordProviderError n0)) ∧
     (∀ r ∈ (passP "example.com" ["a", "b"] none envLookupHttpError
        [1, 0] [0, 1]).requests, isUpdate r = false) ∧
     (∀ r ∈ (passC "example.com" ["a", "b"] none envLookupHttpError
        [1, 0] [0, 1]).requests, isUpdate r = false)) :=
  ⟨⟨by decide, rfl, by decide, by decide, by decide, by decide⟩,
   c6_lookup_failure "example.com" ["a", "b"] none envLookupHttpError
     [1, 0] [0, 1] ["z1"] "b" (by decide) rfl (by decide) (by decide)
     (by decide) (by decide)⟩

/-- Claim C4: in a part_000 pass that reaches the update step, if updating
one resolved record id fails while every other resolved id's update
succeeds, the pass fails naming exactly that record id, and every resolved
record id's update request is nonetheless issued (none is skipped or rolled
back). -/
theorem c4_update_failure_isolation (zoneName : String) (names : List String)
    (prev : Option String) (env : Env) (σ τ : List Nat) (zs : List String)
    (id0 : String)
    (hchg : prev ≠ some env.currentIp)
    (hz : env.zoneResp = Resp.ok zs)
    (hzt : jsFalsy zs.head? = false)
    (hσ : σ.Perm (List.range names.length))
    (hok : ∀ n ∈ names, env.recordResp n ≠ Resp.httpError)
    (hres : ∀ n ∈ names, jsFalsy (recLookupVal env n) = false)
    (hτ : τ.Perm (List.range
      ((objValues (buildIdMap env names σ)).map jsStr).length))
    (hid0 : id0 ∈ (objValues (buildIdMap env names σ)).map jsStr)
    (hfail : env.updateOk id0 = false)
    (hothers : ∀ r ∈ (objValues (buildIdMap env names σ)).map jsStr,
      r ≠ id0 → env.updateOk r = true) :
    (passP zoneName names prev env σ τ).result =
      .error (.updateFailed id0) ∧
    ∀ r ∈ (objValues (buildIdMap env names σ)).map jsStr,
      Request.update (jsStr zs.head?) r env.currentIp ∈
        (passP zoneName names prev env σ τ).requests := by
  rw [passP_update_branch zoneName names prev env σ τ zs hchg hz hzt hσ hok
    hres]
  constructor
  · show updateDNSRecord env
      ((objValues (buildIdMap env names σ)).map jsStr) τ =
        .error (.updateFailed id0)
    simp only [updateDNSRecord,
      updFirstFailure_unique env _ τ hτ id0 hid0 hfail hothers]
  · intro r hr
    show Request.update (jsStr zs.head?) r env.currentIp ∈
      Request.zoneLookup zoneName ::
        (recordLookupRequests (jsStr zs.head?) names ++
          updateRequests (jsStr zs.head?)
            ((objValues (buildIdMap env names σ)).map jsStr) env.currentIp)
    exact List.mem_cons_of_mem _ (List.mem_append_right _
      (List.mem_map.mpr ⟨r, hr, rfl⟩))

/-- Witness for c4_update_failure_isolation at a concrete input. -/
theorem c4_update_failure_isolation_witness :
    ((none : Option String) ≠ some envUpdFail.currentIp ∧
     envUpdFail.zoneResp = Resp.ok ["z1"] ∧
     jsFalsy (["z1"] : List String).head? = false ∧
     ([0, 1] : List Nat).Perm
       (List.range (["a", "b"] : List String).length) ∧
     (∀ n ∈ (["a", "b"] : List String),
        envUpdFail.recordResp n ≠ Resp.httpError) ∧
     (∀ n ∈ (["a", "b"] : List String),
        jsFalsy (recLookupVal envUpdFail n) = false) ∧
     ([1, 0] : List Nat).Perm (List.range
       ((objValues (buildIdMap envUpdFail ["a", "b"] [0, 1])).map
         jsStr).length) ∧
     "r1" ∈ (objValues (buildIdMap envUpdFail ["a", "b"] [0, 1])).map jsStr ∧
     envUpdFail.updateOk "r1" = false ∧
     (∀ r ∈ (objValues (buildIdMap envUpdFail ["a", "b"] [0, 1])).map jsStr,
        r ≠ "r1" → envUpdFail.updateOk r = true)) ∧
    ((passP "example.com" ["a", "b"] none envUpdFail [0, 1] [1, 0]).result =
        .error (.updateFailed "r1") ∧
     ∀ r ∈ (objValues (buildIdMap envUpdFail ["a", "b"] [0, 1])).map jsStr,
       Request.update (jsStr (["z1"] : List String).head?) r
           envUpdFail.currentIp ∈
         (passP "example.com" ["a", "b"] none envUpdFail
           [0, 1] [1, 0]).requests) :=
  ⟨⟨by decide, rfl, by decide, by decide, by decide, by decide, by decide,
    by decide, by decide, by decide⟩,
   c4_update_failure_isolation "example.com" ["a", "b"] none envUpdFail
     [0, 1] [1, 0] ["z1"] "r1" (by decide) rfl (by decide) (by decide)
     (by decide) (by decide) (by decide) (by decide) (by decide) (by decide)⟩

/-- Claim C5 (amended, pairwise-distinct names): for N pairwise-distinct
configured record names, resolution issues exactly N lookup requests and,
when every lookup succeeds, returns a mapping with exactly N entries, one
per configured name, for every completion order of the N concurrent
requests. -/
theorem c5_resolution_fanout (env : Env) (zid : String)
    (names : List String) (σ : List Nat)
    (hσ : σ.Perm (List.range names.length))
    (hnd : names.Nodup)
    (hok : ∀ n ∈ names, env.recordResp n ≠ Resp.httpError) :
    (recordLookupRequests zid names).length = names.length ∧
    ∃ m, getRecordIds env names σ = .ok m ∧ m.length = names.length ∧
      ∀ n ∈ names, objGet m n = some (recLookupVal env n) := by
  refine ⟨by rw [recordLookupRequests, List.length_map], ?_⟩
  refine ⟨buildIdMap env names σ, getRecordIds_ok env names σ hσ hok, ?_, ?_⟩
  · rw [length_buildIdMap env names σ hσ, hnd.dedup]
  · intro n hn
    rw [objGet_buildIdMap env names σ hσ, if_pos hn]

/-- Witness for c5_resolution_fanout at a concrete input (a nontrivial
completion order: the second lookup settles first). -/
theorem c5_resolution_fanout_witness :
    (([1, 0] : List Nat).Perm
       (List.range (["a", "b"] : List String).length) ∧
     (["a", "b"] : List String).Nodup ∧
     (∀ n ∈ (["a", "b"] : List String),
        envGood.recordResp n ≠ Resp.httpError)) ∧
    ((recordLookupRequests "z1" ["a", "b"]).length =
        (["a", "b"] : List String).length ∧
     ∃ m, getRecordIds envGood ["a", "b"] [1, 0] = .ok m ∧
       m.length = (["a", "b"] : List String).length ∧
       ∀ n ∈ (["a", "b"] : List String),
         objGet m n = some (recLookupVal envGood n)) :=
  ⟨⟨by decide, by decide, by decide⟩,
   c5_resolution_fanout envGood "z1" ["a", "b"] [1, 0] (by decide)
     (by decide) (by decide)⟩

/-- Claim C5, counterexample against the claim as stated: for the
configured list [a, a] (N = 2 entries), resolution issues 2 lookup
requests but no success mapping with 2 entries exists - the mapping has a
single entry. -/
theorem c5_counterexample :
    (recordLookupRequests "z1" ["a", "a"]).length = 2 ∧
    ¬ ∃ m, getRecordIds envGood ["a", "a"] [0, 1] = .ok m ∧
        m.length = 2 := by
  refine ⟨rfl, ?_⟩
  rintro ⟨m, hm, hlen⟩
  have hv : getRecordIds envGood ["a", "a"] [0, 1] =
      .ok [("a", some "r1")] := rfl
  rw [hv] at hm
  injection hm with h
  rw [← h] at hlen
  exact absurd hlen (by decide)

/-- Claim C8: in a part_000 pass that reaches the update step, an update
request is issued for every configured record name's resolved id, every
update request in the pass is for some configured name's resolved id (never
a proper subset, never an extra record), and all of them carry the same
new-address payload and the resolved zone id. -/
theorem c8_update_set_invariant (zoneName : String) (names : List String)
    (prev : Option String) (env : Env) (σ τ : List Nat) (zs : List String)
    (hchg : prev ≠ some env.currentIp)
    (hz : env.zoneResp = Resp.ok zs)
    (hzt : jsFalsy zs.head? = false)
    (hσ : σ.Perm (List.range names.length))
    (hok : ∀ n ∈ names, env.recordResp n ≠ Resp.httpError)
    (hres : ∀ n ∈ names, jsFalsy (recLookupVal env n) = false) :
    (∀ n ∈ names, Request.update (jsStr zs.head?)
        (jsStr (recLookupVal env n)) env.currentIp ∈
        (passP zoneName names prev env σ τ).requests) ∧
    (∀ zid rid ip, Request.update zid rid ip ∈
        (passP zoneName names prev env σ τ).requests →
      ip = env.currentIp ∧ zid = jsStr zs.head? ∧
        ∃ n ∈ names, rid = jsStr (recLookupVal env n)) := by
  rw [passP_update_branch zoneName names prev env σ τ zs hchg hz hzt hσ hok
    hres]
  constructor
  · intro n hn
    have hkey : n ∈ objKeys (buildIdMap env names σ) :=
      (mem_objKeys_buildIdMap env names σ hσ n).mpr hn
    have hval : recLookupVal env n ∈ objValues (buildIdMap env names σ) := by
      rw [objValues_buildIdMap]
      exact List.mem_map.mpr ⟨n, hkey, rfl⟩
    have hid : jsStr (recLookupVal env n) ∈
        (objValues (buildIdMap env names σ)).map jsStr :=
      List.mem_map.mpr ⟨_, hval, rfl⟩
    show Request.update (jsStr zs.head?) (jsStr (recLookupVal env n))
        env.currentIp ∈
      Request.zoneLookup zoneName ::
        (recordLookupRequests (jsStr zs.head?) names ++
          updateRequests (jsStr zs.head?)
            ((objValues (buildIdMap env names σ)).map jsStr) env.currentIp)
    exact List.mem_cons_of_mem _ (List.mem_append_right _
      (List.mem_map.mpr ⟨_, hid, rfl⟩))
  · intro zid rid ip hmem
    have hmem' : Request.update zid rid ip ∈
        Request.zoneLookup zoneName ::
          (recordLookupRequests (jsStr zs.head?) names ++
            updateRequests (jsStr zs.head?)
              ((objValues (buildIdMap env names σ)).map jsStr)
              env.currentIp) := hmem
    rcases List.mem_cons.mp hmem' with h | h
    · exact absurd h (by simp)
    · rcases List.mem_append.mp h with h' | h'
      · obtain ⟨n, -, hh⟩ := List.mem_map.mp h'
        exact absurd hh (by simp)
      · obtain ⟨r, hr, hh⟩ := List.mem_map.mp h'
        injection hh with h1 h2 h3
        subst h1; subst h2; subst h3
        obtain ⟨v, hv, rfl⟩ := List.mem_map.mp hr
        rw [objValues_buildIdMap] at hv
        obtain ⟨n, hn, rfl⟩ := List.mem_map.mp hv
        exact ⟨rfl, rfl, n,
          (mem_objKeys_buildIdMap env names σ hσ n).mp hn, rfl⟩

/-- Witness for c8_update_set_invariant at a concrete input. -/
theorem c8_update_set_invariant_witness :
    ((none : Option String) ≠ some envGood.currentIp ∧
     envGood.zoneResp = Resp.ok ["z1"] ∧
     jsFalsy (["z1"] : List String).head? = false ∧
     ([1, 0] : List Nat).Perm
       (List.range (["a", "b"] : List String).length) ∧
     (∀ n ∈ (["a", "b"] : List String),
        envGood.recordResp n ≠ Resp.httpError) ∧
     (∀ n ∈ (["a", "b"] : List String),
        jsFalsy (recLookupVal envGood n) = false)) ∧
    ((∀ n ∈ (["a", "b"] : List String),
        Request.update (jsStr (["z1"] : List String).head?)
          (jsStr (recLookupVal envGood n)) envGood.currentIp ∈
          (passP "example.com" ["a", "b"] none envGood [1, 0] [0, 1]).requests) ∧
     (∀ zid rid ip, Request.update zid rid ip ∈
        (passP "example.com" ["a", "b"] none envGood [1, 0] [0, 1]).requests →
        ip = envGood.currentIp ∧ zid = jsStr (["z1"] : List String).head? ∧
          ∃ n ∈ (["a", "b"] : List String),
            rid = jsStr (recLookupVal envGood n))) :=
  ⟨⟨by decide, rfl, by decide, by decide, by decide, by decide⟩,
   c8_update_set_invariant "example.com" ["a", "b"] none envGood [1, 0]
     [0, 1] ["z1"] (by decide) rfl (by decide) (by decide) (by decide)
     (by decide)⟩

/-- Claim C9: when the configured record list repeats a name, part_000's
resolution returns one mapping entry per distinct name (each configured
name still gets its looked-up id) and the update step builds one update
request per distinct name - strictly fewer entries and requests than
configured occurrences. -/
theorem c9_duplicate_names (env : Env) (zid ip : String)
    (names : List String) (σ : List Nat)
    (hσ : σ.Perm (List.range names.length))
    (hok : ∀ n ∈ names, env.recordResp n ≠ Resp.httpError)
    (hdup : ¬ names.Nodup) :
    ∃ m, getRecordIds env names σ = .ok m ∧
      m.length = names.dedup.length ∧
      (∀ n ∈ names, objGet m n = some (recLookupVal env n)) ∧
      (updateRequests zid ((objValues m).map jsStr) ip).length =
        names.dedup.length ∧
      names.dedup.length < names.length := by
  refine ⟨buildIdMap env names σ, getRecordIds_ok env names σ hσ hok,
    length_buildIdMap env names σ hσ, ?_, ?_, ?_⟩
  · intro n hn
    rw [objGet_buildIdMap env names σ hσ, if_pos hn]
  · rw [updateRequests, List.length_map, List.length_map, objValues,
      List.length_map, length_buildIdMap env names σ hσ]
  · have hsub := List.dedup_sublist names
    rcases lt_or_eq_of_le hsub.length_le with h | h
    · exact h
    · exact absurd (List.dedup_eq_self.mp (hsub.eq_of_length h)) hdup

/-- Witness for c9_duplicate_names at a concrete input. -/
theorem c9_duplicate_names_witness :
    (([2, 0, 1] : List Nat).Perm
       (List.range (["a", "a", "b"] : List String).length) ∧
     (∀ n ∈ (["a", "a", "b"] : List String),
        envGood.recordResp n ≠ Resp.httpError) ∧
     ¬ (["a", "a", "b"] : List String).Nodup) ∧
    (∃ m, getRecordIds envGood ["a", "a", "b"] [2, 0, 1] = .ok m ∧
      m.length = (["a", "a", "b"] : List String).dedup.length ∧
      (∀ n ∈ (["a", "a", "b"] : List String),
        objGet m n = some (recLookupVal envGood n)) ∧
      (updateRequests "z1" ((objValues m).map jsStr) "1.2.3.4").length =
        (["a", "a", "b"] : List String).dedup.length ∧
      (["a", "a", "b"] : List String).dedup.length <
        (["a", "a", "b"] : List String).length) :=
  ⟨⟨by decide, by decide, by decide⟩,
   c9_duplicate_names envGood "z1" "1.2.3.4" ["a", "a", "b"] [2, 0, 1]
     (by decide) (by decide) (by decide)⟩

/-- Shape of the request trace of a changed-address part_000 pass: the zone
lookup alone, or followed by the record lookups, or followed by the record
lookups and the updates. -/
theorem passP_requests_shape (zoneName : String) (names : List String)
    (prev : Option String) (env : Env) (σ τ : List Nat)
    (hchg : prev ≠ some env.currentIp) :
    (passP zoneName names prev env σ τ).requests =
        [Request.zoneLookup zoneName] ∨
    ∃ zs, env.zoneResp = Resp.ok zs ∧
      ((passP zoneName names prev env σ τ).requests =
          Request.zoneLookup zoneName ::
            recordLookupRequests (jsStr zs.head?) names ∨
       (passP zoneName names prev env σ τ).requests =
          Request.zoneLookup zoneName ::
            (recordLookupRequests (jsStr zs.head?) names ++
              updateRequests (jsStr zs.head?)
                ((objValues (buildIdMap env names σ)).map jsStr)
                env.currentIp)) := by
  cases hz : env.zoneResp with
  | httpError =>
      left
      simp [passP, if_neg hchg, hz]
  | ok zs =>
      by_cases hzt : jsFalsy zs.head? = true
      · left
        simp [passP, if_neg hchg, hz, hzt]
      · right
        rw [Bool.not_eq_true] at hzt
        refine ⟨zs, rfl, ?_⟩
        cases hrf : recFirstFailure env names σ with
        | some n =>
            left
            simp [passP, if_neg hchg, hz, hzt, getRecordIds, hrf]
        | none =>
            cases hfm : firstMissing (buildIdMap env names σ) names with
            | some n =>
                left
                simp [passP, if_neg hchg, hz, hzt, getRecordIds, hrf, hfm]
            | none =>
                right
                simp [passP, if_neg hchg, hz, hzt, getRecordIds, hrf, hfm]

/-- Claim C7 (amended, part_000 version): a changed-address pass issues
exactly one zone-lookup request; it fails with the zone-not-found error on
zero matching zones and with the provider error on a non-success response;
otherwise every subsequent request in the pass addresses the id of the
first matching zone. -/
theorem c7_zone_resolution (zoneName : String) (names : List String)
    (prev : Option String) (env : Env) (σ τ : List Nat)
    (hchg : prev ≠ some env.currentIp) :
    (passP zoneName names prev env σ τ).requests.filter isZoneLookup =
        [Request.zoneLookup zoneName] ∧
    (env.zoneResp = Resp.httpError →
      (passP zoneName names prev env σ τ).result =
        .error (.zoneProviderError zoneName)) ∧
    (env.zoneResp = Resp.ok [] →
      (passP zoneName names prev env σ τ).result =
        .error (.zoneNotFound zoneName)) ∧
    (∀ z zrest, env.zoneResp = Resp.ok (z :: zrest) → z ≠ "" →
      (∀ zid n, Request.recordLookup zid n ∈
          (passP zoneName names prev env σ τ).requests → zid = z) ∧
      (∀ zid rid ip, Request.update zid rid ip ∈
          (passP zoneName names prev env σ τ).requests → zid = z)) := by
  have hlf : ∀ zid, (recordLookupRequests zid names).filter isZoneLookup
      = [] := fun zid => List.filter_eq_nil_iff.mpr
    (fun r hr => by simp [isZoneLookup_recordLookupRequests zid names r hr])
  have huf : ∀ zid ids ip,
      (updateRequests zid ids ip).filter isZoneLookup = [] :=
    fun zid ids ip => List.filter_eq_nil_iff.mpr
      (fun r hr => by simp [isZoneLookup_updateRequests zid ids ip r hr])
  refine ⟨?_, ?_, ?_, ?_⟩
  · rcases passP_requests_shape zoneName names prev env σ τ hchg with
      h | ⟨zs, hz, h | h⟩ <;>
      rw [h] <;>
      simp [List.filter_cons, List.filter_append, isZoneLookup, hlf, huf]
  · intro hz
    simp [passP, if_neg hchg, hz]
  · intro hz
    simp [passP, if_neg hchg, hz, jsFalsy]
  · intro z zrest hz hz0
    constructor
    · intro zid n hmem
      rcases passP_requests_shape zoneName names prev env σ τ hchg with
        h | ⟨zs, hzs, h | h⟩
      · rw [h] at hmem
        rcases List.mem_cons.mp hmem with h' | h'
        · exact absurd h' (by simp)
        · exact absurd h' (by simp)
      · rw [hz] at hzs
        obtain rfl : zs = z :: zrest := (Resp.ok.inj hzs).symm
        rw [h] at hmem
        rcases List.mem_cons.mp hmem with h' | h'
        · exact absurd h' (by simp)
        · obtain ⟨n', -, hh⟩ := List.mem_map.mp h'
          injection hh with h1 h2
          rw [← h1]
          rfl
      · rw [hz] at hzs
        obtain rfl : zs = z :: zrest := (Resp.ok.inj hzs).symm
        rw [h] at hmem
        rcases List.mem_cons.mp hmem with h' | h'
        · exact absurd h' (by simp)
        · rcases List.mem_append.mp h' with h'' | h''
          · obtain ⟨n', -, hh⟩ := List.mem_map.mp h''
            injection hh with h1 h2
            rw [← h1]
            rfl
          · obtain ⟨r, -, hh⟩ := List.mem_map.mp h''
            exact absurd hh (by simp)
    · intro zid rid ip hmem
      rcases passP_requests_shape zoneName names prev env σ τ hchg with
        h | ⟨zs, hzs, h | h⟩
      · rw [h] at hmem
        rcases List.mem_cons.mp hmem with h' | h'
        · exact absurd h' (by simp)
        · exact absurd h' (by simp)
      · rw [h] at hmem
        rcases List.mem_cons.mp hmem with h' | h'
        · exact absurd h' (by simp)
        · obtain ⟨n', -, hh⟩ := List.mem_map.mp h'
          exact absurd hh (by simp)
      · rw [hz] at hzs
        obtain rfl : zs = z :: zrest := (Resp.ok.inj hzs).symm
        rw [h] at hmem
        rcases List.mem_cons.mp hmem with h' | h'
        · exact absurd h' (by simp)
        · rcases List.mem_append.mp h' with h'' | h''
          · obtain ⟨n', -, hh⟩ := List.mem_map.mp h''
            exact absurd hh (by simp)
          · obtain ⟨r, -, hh⟩ := List.mem_map.mp h''
            injection hh with h1 h2 h3
            rw [← h1]
            rfl

/-- Witness for c7_zone_resolution at a concrete input. -/
theorem c7_zone_resolution_witness :
    ((none : Option String) ≠ some envGood.currentIp) ∧
    ((passP "example.com" ["a"] none envGood [0] [0]).requests.filter
        isZoneLookup = [Request.zoneLookup "example.com"] ∧
     (envGood.zoneResp = Resp.httpError →
       (passP "example.com" ["a"] none envGood [0] [0]).result =
         .error (.zoneProviderError "example.com")) ∧
     (envGood.zoneResp = Resp.ok [] →
       (passP "example.com" ["a"] none envGood [0] [0]).result =
         .error (.zoneNotFound "example.com")) ∧
     (∀ z zrest, envGood.zoneResp = Resp.ok (z :: zrest) → z ≠ "" →
       (∀ zid n, Request.recordLookup zid n ∈
          (passP "example.com" ["a"] none envGood [0] [0]).requests →
          zid = z) ∧
       (∀ zid rid ip, Request.update zid rid ip ∈
          (passP "example.com" ["a"] none envGood [0] [0]).requests →
          zid = z))) :=
  ⟨by decide,
   c7_zone_resolution "example.com" ["a"] none envGood [0] [0] (by decide)⟩

/-- Claim C7, counterexample against the claim as stated: in the src/cdu.ts
pass, the provider reports zero matching zones, yet the pass does not fail
with a not-found error - it proceeds with the undefined zone id, issuing
the record lookup against the literal zone path "undefined", and
succeeds. -/
theorem c7_counterexample :
    (passC "example.com" ["a"] none envNoZone [0] [0]).result = .ok () ∧
    Request.recordLookup "undefined" "a" ∈
      (passC "example.com" ["a"] none envNoZone [0] [0]).requests ∧
    Request.update "undefined" "r1" "3.3.3.3" ∈
      (passC "example.com" ["a"] none envNoZone [0] [0]).requests := by
  refine ⟨rfl, ?_, ?_⟩ <;> decide

/-- With pairwise-distinct names, the id list part_000 passes to the update
step (the map's values, key order) is a permutation of the id list cdu.ts
passes (configuration order). -/
theorem idsP_perm_idsC (env : Env) (names : List String) (σ : List Nat)
    (hσ : σ.Perm (List.range names.length)) (hnd : names.Nodup) :
    ((objValues (buildIdMap env names σ)).map jsStr).Perm
      ((names.map (recLookupVal env)).map jsStr) := by
  apply List.Perm.map
  rw [objValues_buildIdMap]
  apply List.Perm.map
  have h := objKeys_buildIdMap_perm_dedup env names σ hσ
  rwa [hnd.dedup] at h

/-- updateDNSRecord succeeds exactly when every record id's PATCH succeeds,
for any completion order. -/
theorem updateDNSRecord_ok_iff (env : Env) (ids : List String)
    (τ : List Nat) (hτ : τ.Perm (List.range ids.length)) :
    updateDNSRecord env ids τ = .ok () ↔
      ∀ r ∈ ids, env.updateOk r = true := by
  constructor
  · intro h
    rw [← updFirstFailure_eq_none env ids τ hτ]
    cases hf : updFirstFailure env ids τ with
    | none => rfl
    | some r =>
        rw [updateDNSRecord] at h
        simp only [hf] at h
        exact absurd h (by simp)
  · intro h
    rw [updateDNSRecord]
    simp only [(updFirstFailure_eq_none env ids τ hτ).mpr h]

/-- Claim C10 (amended): the two versions agree on the no-op path; and on a
pass with pairwise-distinct configured names in which the zone resolves to
a truthy id and every record lookup succeeds with a truthy id, they issue
the same provider requests up to the ordering of the update fan-out and
agree on whether the pass succeeds.  (They diverge when the zone or a
record is missing - see the counterexample.) -/
theorem c10_version_agreement (zoneName : String) (names : List String)
    (prev : Option String) (env : Env) (σ τ : List Nat) (zs : List String)
    (hnd : names.Nodup)
    (hz : env.zoneResp = Resp.ok zs)
    (hzt : jsFalsy zs.head? = false)
    (hσ : σ.Perm (List.range names.length))
    (hok : ∀ n ∈ names, env.recordResp n ≠ Resp.httpError)
    (hres : ∀ n ∈ names, jsFalsy (recLookupVal env n) = false)
    (hτ : τ.Perm (List.range names.length)) :
    (prev = some env.currentIp →
      passP zoneName names prev env σ τ =
        passC zoneName names prev env σ τ) ∧
    (prev ≠ some env.currentIp →
      (passP zoneName names prev env σ τ).requests.Perm
        (passC zoneName names prev env σ τ).requests ∧
      ((passP zoneName names prev env σ τ).result = .ok () ↔
       (passC zoneName names prev env σ τ).result = .ok ())) := by
  constructor
  · intro h
    simp [passP, passC, h]
  · intro hchg
    rw [passP_update_branch zoneName names prev env σ τ zs hchg hz hzt hσ
        hok hres,
      passC_update_branch zoneName names prev env σ τ zs hchg hz hσ hok]
    have hperm := idsP_perm_idsC env names σ hσ hnd
    have hlenP : ((objValues (buildIdMap env names σ)).map jsStr).length =
        names.length := by
      rw [List.length_map, objValues, List.length_map,
        length_buildIdMap env names σ hσ, hnd.dedup]
    have hlenC : ((names.map (recLookupVal env)).map jsStr).length =
        names.length := by
      rw [List.length_map, List.length_map]
    constructor
    · show (Request.zoneLookup zoneName ::
          (recordLookupRequests (jsStr zs.head?) names ++
            updateRequests (jsStr zs.head?)
              ((objValues (buildIdMap env names σ)).map jsStr)
              env.currentIp)).Perm
        (Request.zoneLookup zoneName ::
          (recordLookupRequests (jsStr zs.head?) names ++
            updateRequests (jsStr zs.head?)
              ((names.map (recLookupVal env)).map jsStr) env.currentIp))
      exact List.Perm.cons _ ((List.Perm.refl _).append (hperm.map _))
    · show updateDNSRecord env
          ((objValues (buildIdMap env names σ)).map jsStr) τ = .ok () ↔
        updateDNSRecord env
          ((names.map (recLookupVal env)).map jsStr) τ = .ok ()
      rw [updateDNSRecord_ok_iff env _ τ (by rw [hlenP]; exact hτ),
        updateDNSRecord_ok_iff env _ τ (by rw [hlenC]; exact hτ)]
      constructor
      · intro h r hr
        exact h r (hperm.mem_iff.mpr hr)
      · intro h r hr
        exact h r (hperm.mem_iff.mp hr)

/-- Witness for c10_version_agreement at a concrete input. -/
theorem c10_version_agreement_witness :
    ((["a", "b"] : List String).Nodup ∧
     envGood.zoneResp = Resp.ok ["z1"] ∧
     jsFalsy (["z1"] : List String).head? = false ∧
     ([1, 0] : List Nat).Perm
       (List.range (["a", "b"] : List String).length) ∧
     (∀ n ∈ (["a", "b"] : List String),
        envGood.recordResp n ≠ Resp.httpError) ∧
     (∀ n ∈ (["a", "b"] : List String),
        jsFalsy (recLookupVal envGood n) = false) ∧
     ([0, 1] : List Nat).Perm
       (List.range (["a", "b"] : List String).length)) ∧
    ((none = some envGood.currentIp →
       passP "example.com" ["a", "b"] none envGood [1, 0] [0, 1] =
         passC "example.com" ["a", "b"] none envGood [1, 0] [0, 1]) ∧
     (none ≠ some envGood.currentIp →
       (passP "example.com" ["a", "b"] none envGood [1, 0] [0, 1]).requests.Perm
         (passC "example.com" ["a", "b"] none envGood [1, 0] [0, 1]).requests ∧
       ((passP "example.com" ["a", "b"] none envGood [1, 0] [0, 1]).result =
           .ok () ↔
        (passC "example.com" ["a", "b"] none envGood [1, 0] [0, 1]).result =
           .ok ()))) :=
  ⟨⟨by decide, rfl, by decide, by decide, by decide, by decide, by decide⟩,
   c10_version_agreement "example.com" ["a", "b"] none envGood [1, 0] [0, 1]
     ["z1"] (by decide) rfl (by decide) (by decide) (by decide) (by decide)
     (by decide)⟩

/-- Claim C10, counterexample against the claim as stated: on the same
environment (record b has no match, every update succeeds) and the same
completion orders, the part_000 pass fails with the not-found error and
issues zero update requests, while the cdu.ts pass succeeds and issues two
update requests - the two versions neither issue the same requests nor
agree on the outcome. -/
theorem c10_counterexample :
    (passP "example.com" ["a", "b"] none envMissingRec [0, 1] [0, 1]).result =
        .error (.recordNotFound "b") ∧
    (passC "example.com" ["a", "b"] none envMissingRec [0, 1] [0, 1]).result =
        .ok () ∧
    (passP "example.com" ["a", "b"] none envMissingRec
        [0, 1] [0, 1]).requests.filter isUpdate = [] ∧
    (passC "example.com" ["a", "b"] none envMissingRec
        [0, 1] [0, 1]).requests.filter isUpdate =
      [Request.update "z1" "r1" "9.9.9.9",
       Request.update "z1" "undefined" "9.9.9.9"] := by
  refine ⟨rfl, rfl, ?_, ?_⟩ <;> decide
